import Mathlib

/-!
A verification development for the AiKv Redis-compatible server.

The definitions below are a shallow embedding of the cluster state machine
(`src/cluster/commands.rs`), the scripting command layer (`src/command/script.rs`)
and the slot hasher of the repository.  Rust `HashMap`s are modelled as
association lists (first match wins on lookup; insert erases the old binding),
the 16384-entry slot vector as a `List (Option Nat)`, `u64`/`u16`/`usize`
values as `Nat` (with an explicit `% 2^16` wrap where `u16` arithmetic can
overflow), and fallible handlers as `Except`.
-/

set_option autoImplicit false

namespace AiKv

/-! ## Basic text utilities (decimal rendering and integer parsing) -/

/-- Fuel-driven digit expansion (the fuel dominates the digit count, so the
base arm is never reached with a positive argument). -/
def natCharsAux : Nat → Nat → List Char
  | 0, _ => []
  | fuel + 1, n =>
    if n < 10 then [Nat.digitChar n]
    else natCharsAux fuel (n / 10) ++ [Nat.digitChar (n % 10)]

/-- Decimal digits of `n`, most significant first (Rust `Display` for unsigned ints). -/
def natChars (n : Nat) : List Char :=
  natCharsAux (n + 1) n

/-- Decimal rendering of a natural number. -/
def natStr (n : Nat) : String :=
  ⟨natChars n⟩

/-- Value of a list of decimal digit characters; `none` if empty or a non-digit occurs. -/
def digitsVal : List Char → Option Nat
  | [] => none
  | [c] => if c.isDigit then some (c.toNat - 48) else none
  | c :: rest =>
    if c.isDigit then
      (digitsVal rest).map (fun v => (c.toNat - 48) * 10 ^ rest.length + v)
    else none

/-- Rust `str::parse` for an unsigned integer type with maximum value `max`:
an optional leading `+`, then one or more decimal digits, value within range. -/
def parseUInt (max : Nat) (s : String) : Option Nat :=
  let cs := match s.data with
    | '+' :: rest => rest
    | cs => cs
  match digitsVal cs with
  | some v => if v ≤ max then some v else none
  | none => none

/-- Rust `parse::<u16>()`. -/
def parseU16 (s : String) : Option Nat :=
  parseUInt 65535 s

/-- Rust `parse::<usize>()` on a 64-bit platform. -/
def parseUsize (s : String) : Option Nat :=
  parseUInt 18446744073709551615 s

/-- Value of a list of hexadecimal digit characters (case-insensitive);
`none` if empty or a non-hex-digit occurs. -/
def hexDigitVal (c : Char) : Option Nat :=
  if '0' ≤ c ∧ c ≤ '9' then some (c.toNat - 48)
  else if 'a' ≤ c ∧ c ≤ 'f' then some (c.toNat - 87)
  else if 'A' ≤ c ∧ c ≤ 'F' then some (c.toNat - 55)
  else none

/-- Accumulating hex parser over a character list. -/
def hexVal : List Char → Nat → Option Nat
  | [], acc => some acc
  | c :: rest, acc =>
    match hexDigitVal c with
    | some d => hexVal rest (acc * 16 + d)
    | none => none

/-- Rust `u64::from_str_radix(s, 16)`: optional leading `+`, one or more hex
digits, value below `2^64`. -/
def parseHexU64 (s : String) : Option Nat :=
  let cs := match s.data with
    | '+' :: rest => rest
    | cs => cs
  if cs.isEmpty then none
  else
    match hexVal cs 0 with
    | some v => if v < 18446744073709551616 then some v else none
    | none => none

/-- Wrapping `u16` addition (release-mode two's-complement semantics of
`a + b` on `u16`). -/
def u16add (a b : Nat) : Nat :=
  (a + b) % 65536

/-! ## Association-list model of `HashMap` -/

/-- First-match lookup (model of `HashMap::get`). -/
def mlookup {α : Type} (m : List (Nat × α)) (k : Nat) : Option α :=
  match m.find? (fun p => p.1 == k) with
  | some p => some p.2
  | none => none

/-- Model of `HashMap::insert`: the old binding for `k` is erased. -/
def minsert {α : Type} (m : List (Nat × α)) (k : Nat) (v : α) : List (Nat × α) :=
  (k, v) :: m.filter (fun p => p.1 != k)

/-- Model of `HashMap::remove`. -/
def mremove {α : Type} (m : List (Nat × α)) (k : Nat) : List (Nat × α) :=
  m.filter (fun p => p.1 != k)

/-- Model of `HashMap::contains_key`. -/
def mcontains {α : Type} (m : List (Nat × α)) (k : Nat) : Bool :=
  (mlookup m k).isSome

/-- Rust `str::to_uppercase`, restricted to the ASCII range (the only
characters the dispatched subcommand names contain). -/
def strToUpper (s : String) : String :=
  ⟨s.data.map Char.toUpper⟩

/-! ## RESP values and the error taxonomy -/

/-- `RespValue` (`src/protocol`), restricted to the cases the embedded handlers
produce.  Bulk strings carry text (the handlers only ever emit valid UTF-8). -/
inductive RespValue where
  | simpleString (s : String)
  | error (s : String)
  | integer (i : Int)
  | bulkString (b : Option String)
  | array (a : Option (List RespValue))
  | null

/-- `AikvError` (`src/error.rs`), restricted to the kinds the embedded handlers
produce. -/
inductive AikvError where
  | wrongArgCount (cmd : String)
  | invalidCommand (detail : String)
  | invalidArgument (detail : String)
  | script (detail : String)
  | storage (detail : String)
deriving DecidableEq

/-! ## Cluster data model (`src/cluster/commands.rs`) -/

/-- Total number of slots in Redis Cluster. -/
def TOTAL_SLOTS : Nat := 16384

/-- Slot state enumeration for CLUSTER SETSLOT. -/
inductive SlotState where
  | Normal
  | Migrating
  | Importing
deriving DecidableEq

/-- Node information for cluster management. -/
structure NodeInfo where
  id : Nat
  addr : String
  cluster_port : Nat
  is_master : Bool
  is_connected : Bool
deriving DecidableEq

/-- `NodeInfo::new`: derive the cluster-bus port from the last `:`-separated
piece of the address (defaulting to `6379`), adding `10000` with `u16` wrap. -/
def NodeInfo.new (id : Nat) (addr : String) : NodeInfo :=
  let cluster_port :=
    match (addr.splitOn ":").getLast? with
    | some portStr => u16add ((parseU16 portStr).getD 6379) 10000
    | none => 16379
  { id := id, addr := addr, cluster_port := cluster_port,
    is_master := true, is_connected := true }

/-- Cluster state (`ClusterState`). -/
structure ClusterState where
  nodes : List (Nat × NodeInfo)
  slot_assignments : List (Option Nat)
  slot_states : List (Nat × SlotState)
  migration_targets : List (Nat × Nat)
  config_epoch : Nat

/-- `ClusterState::new`. -/
def ClusterState.new : ClusterState :=
  { nodes := []
    slot_assignments := List.replicate TOTAL_SLOTS none
    slot_states := []
    migration_targets := []
    config_epoch := 0 }

/-- `ClusterState::assigned_slots_count`. -/
def assigned_slots_count (st : ClusterState) : Nat :=
  (st.slot_assignments.filter (fun s => s.isSome)).length

/-- `ClusterState::all_slots_assigned`. -/
def all_slots_assigned (st : ClusterState) : Bool :=
  assigned_slots_count st == TOTAL_SLOTS

/-! ## Cluster mutation commands (`ClusterCommands`)

Each handler is a pure function from the handler's `node_id`, the current
`ClusterState` and the (UTF-8 decoded) argument frames to either an error or
the reply together with the successor state.  The Rust handlers mutate the
state only after all validation succeeded, so an error result leaves the
shared state untouched; `stepMut` below realises exactly that. -/

/-- Outcome of a state-mutating handler. -/
abbrev CmdResult := Except AikvError (RespValue × ClusterState)

/-- `ClusterCommands::meet`.  `hashAddr` stands for the (deterministic but
unspecified) `DefaultHasher` used to derive a 64-bit node id from `ip:port`. -/
def meet (hashAddr : String → Nat) (st : ClusterState) (args : List String) :
    CmdResult :=
  match args with
  | ip :: portStr :: rest =>
    match parseU16 portStr with
    | none => .error (.invalidArgument "Invalid port number")
    | some port =>
      let clusterPortE : Except AikvError Nat :=
        match rest with
        | cpStr :: _ =>
          match parseU16 cpStr with
          | none => .error (.invalidArgument "Invalid cluster port number")
          | some cp => .ok cp
        | [] => .ok (u16add port 10000)
      match clusterPortE with
      | .error e => .error e
      | .ok cluster_port =>
        let addr := ip ++ ":" ++ natStr port
        let node_id := hashAddr addr % 18446744073709551616
        let node_info := { NodeInfo.new node_id addr with cluster_port := cluster_port }
        .ok (.simpleString "OK",
          { st with nodes := minsert st.nodes node_id node_info
                    config_epoch := st.config_epoch + 1 })
  | _ => .error (.wrongArgCount "CLUSTER MEET")

/-- `ClusterCommands::forget`. -/
def forget (nid : Option Nat) (st : ClusterState) (args : List String) :
    CmdResult :=
  if args.length ≠ 1 then .error (.wrongArgCount "CLUSTER FORGET")
  else
    let node_id_str := args[0]!
    match parseHexU64 node_id_str with
    | none => .error (.invalidArgument "Invalid node ID")
    | some node_id =>
      if some node_id = nid then
        .error (.invalidArgument "I tried hard but I can\x27t forget myself")
      else if ¬ mcontains st.nodes node_id then
        .error (.invalidArgument ("Unknown node " ++ node_id_str))
      else
        .ok (.simpleString "OK",
          { st with
              nodes := mremove st.nodes node_id
              slot_assignments := st.slot_assignments.map
                (fun s => if s = some node_id then none else s)
              config_epoch := st.config_epoch + 1 })

/-- The parse-and-validate loop shared by ADDSLOTS and DELSLOTS: every
argument must parse as `u16` and lie below `TOTAL_SLOTS`; the first failure
aborts. -/
def parseSlotArgs : List String → Except AikvError (List Nat)
  | [] => .ok []
  | a :: rest =>
    match parseU16 a with
    | none => .error (.invalidArgument "Invalid slot number")
    | some slot =>
      if slot ≥ TOTAL_SLOTS then
        .error (.invalidArgument
          ("Invalid slot " ++ natStr slot ++ " (out of range 0-16383)"))
      else
        (parseSlotArgs rest).map (fun slots => slot :: slots)

/-- The busy test of `ClusterCommands::addslots`: the slot is assigned to a
node other than the local one. -/
def busyForOther (st : ClusterState) (my : Nat) (slot : Nat) : Bool :=
  match st.slot_assignments.getD slot none with
  | some assigned_to => assigned_to != my
  | none => false

/-- `ClusterCommands::addslots`. -/
def addslots (nid : Option Nat) (st : ClusterState) (args : List String) :
    CmdResult :=
  if args.isEmpty then .error (.wrongArgCount "CLUSTER ADDSLOTS")
  else
    match nid with
    | none => .error (.invalidCommand "Node ID not set for this cluster node")
    | some my_node_id =>
      match parseSlotArgs args with
      | .error e => .error e
      | .ok slots_to_add =>
        match slots_to_add.find? (busyForOther st my_node_id) with
        | some slot =>
          .error (.invalidArgument ("Slot " ++ natStr slot ++ " is already busy"))
        | none =>
          .ok (.simpleString "OK",
            { st with
                slot_assignments := slots_to_add.foldl
                  (fun sa slot => sa.set slot (some my_node_id)) st.slot_assignments
                config_epoch := st.config_epoch + 1 })

/-- The ownership test of `ClusterCommands::delslots`: the slot is assigned,
the handler has a node id, and the owner differs from it. -/
def ownedByOther (st : ClusterState) (nid : Option Nat) (slot : Nat) : Bool :=
  match st.slot_assignments.getD slot none with
  | some assigned_to => nid.isSome && some assigned_to != nid
  | none => false

/-- `ClusterCommands::delslots`. -/
def delslots (nid : Option Nat) (st : ClusterState) (args : List String) :
    CmdResult :=
  if args.isEmpty then .error (.wrongArgCount "CLUSTER DELSLOTS")
  else
    match parseSlotArgs args with
    | .error e => .error e
    | .ok slots_to_del =>
      match slots_to_del.find? (ownedByOther st nid) with
      | some slot =>
        .error (.invalidArgument ("Slot " ++ natStr slot ++ " is not owned by this node"))
      | none =>
        .ok (.simpleString "OK",
          { st with
              slot_assignments := slots_to_del.foldl
                (fun sa slot => sa.set slot none) st.slot_assignments
              slot_states := slots_to_del.foldl mremove st.slot_states
              migration_targets := slots_to_del.foldl mremove st.migration_targets
              config_epoch := st.config_epoch + 1 })

/-- `ClusterCommands::setslot`. -/
def setslot (nid : Option Nat) (st : ClusterState) (args : List String) :
    CmdResult :=
  if args.length < 2 then .error (.wrongArgCount "CLUSTER SETSLOT")
  else
    match parseU16 args[0]! with
    | none => .error (.invalidArgument "Invalid slot number")
    | some slot =>
      if slot ≥ TOTAL_SLOTS then
        .error (.invalidArgument
          ("Invalid slot " ++ natStr slot ++ " (out of range 0-16383)"))
      else
        match strToUpper args[1]! with
        | "IMPORTING" =>
          if args.length < 3 then .error (.wrongArgCount "CLUSTER SETSLOT IMPORTING")
          else
            match parseHexU64 args[2]! with
            | none => .error (.invalidArgument "Invalid node ID")
            | some source_node_id =>
              .ok (.simpleString "OK",
                { st with
                    slot_states := minsert st.slot_states slot SlotState.Importing
                    migration_targets := minsert st.migration_targets slot source_node_id
                    config_epoch := st.config_epoch + 1 })
        | "MIGRATING" =>
          if args.length < 3 then .error (.wrongArgCount "CLUSTER SETSLOT MIGRATING")
          else
            match parseHexU64 args[2]! with
            | none => .error (.invalidArgument "Invalid node ID")
            | some target_node_id =>
              .ok (.simpleString "OK",
                { st with
                    slot_states := minsert st.slot_states slot SlotState.Migrating
                    migration_targets := minsert st.migration_targets slot target_node_id
                    config_epoch := st.config_epoch + 1 })
        | "NODE" =>
          if args.length < 3 then .error (.wrongArgCount "CLUSTER SETSLOT NODE")
          else
            match parseHexU64 args[2]! with
            | none => .error (.invalidArgument "Invalid node ID")
            | some target_node_id =>
              if ¬ mcontains st.nodes target_node_id ∧ nid ≠ some target_node_id then
                .error (.invalidArgument ("Unknown node " ++ args[2]!))
              else
                .ok (.simpleString "OK",
                  { st with
                      slot_assignments := st.slot_assignments.set slot (some target_node_id)
                      slot_states := mremove st.slot_states slot
                      migration_targets := mremove st.migration_targets slot
                      config_epoch := st.config_epoch + 1 })
        | "STABLE" =>
          .ok (.simpleString "OK",
            { st with
                slot_states := mremove st.slot_states slot
                migration_targets := mremove st.migration_targets slot
                config_epoch := st.config_epoch + 1 })
        | other =>
          .error (.invalidArgument ("Unknown SETSLOT subcommand: " ++ other))

/-! ## Sequences of mutation commands -/

/-- One invocation of a cluster mutation subcommand with its argument frames. -/
inductive MutCmd where
  | meet (args : List String)
  | forget (args : List String)
  | addslots (args : List String)
  | delslots (args : List String)
  | setslot (args : List String)

/-- Run one mutation command against a state. -/
def runMut (hashAddr : String → Nat) (nid : Option Nat) (st : ClusterState) :
    MutCmd → CmdResult
  | .meet args => meet hashAddr st args
  | .forget args => forget nid st args
  | .addslots args => addslots nid st args
  | .delslots args => delslots nid st args
  | .setslot args => setslot nid st args

/-- Apply one mutation command; a failing command leaves the shared state
unchanged (the Rust handlers validate before they mutate). -/
def stepMut (hashAddr : String → Nat) (nid : Option Nat) (st : ClusterState)
    (c : MutCmd) : ClusterState :=
  match runMut hashAddr nid st c with
  | .ok (_, st') => st'
  | .error _ => st

/-- Apply a sequence of mutation commands in order. -/
def applyMuts (hashAddr : String → Nat) (nid : Option Nat)
    (cmds : List MutCmd) (st : ClusterState) : ClusterState :=
  cmds.foldl (stepMut hashAddr nid) st

/-- The state `ClusterCommands::with_node_id` starts from (and the state the
server builds at startup): a fresh state with the local node registered. -/
def freshWithSelf (my : Nat) : ClusterState :=
  { ClusterState.new with
      nodes := minsert ClusterState.new.nodes my (NodeInfo.new my "127.0.0.1:6379") }

/-! ## Slot hasher

Modelled from the spec: `SlotRouter::key_to_slot` lives in
`src/cluster/router.rs`, which is not among the provided sources; §4.1 of the
spec defines it.  Keys are byte lists (each entry `< 256`). -/

/-- One step of CRC16 (polynomial `0x1021`, MSB first) over a single bit. -/
def crc16Bit (c : Nat) : Nat :=
  if c &&& 32768 ≠ 0 then ((c <<< 1) ^^^ 4129) % 65536 else (c <<< 1) % 65536

/-- Fold one input byte into the CRC16 accumulator. -/
def crc16Byte (c b : Nat) : Nat :=
  (List.range 8).foldl (fun acc _ => crc16Bit acc) ((c ^^^ (b <<< 8)) % 65536)

/-- Modelled from the spec: CRC16-CCITT-FALSE (poly `0x1021`, init `0xFFFF`,
no reflection) over a byte list, as §4.1 prescribes for the slot hasher. -/
def crc16 (data : List Nat) : Nat :=
  data.foldl crc16Byte 65535

/-- The bytes strictly after the first occurrence of `b`, if any. -/
def afterFirst (b : Nat) : List Nat → Option (List Nat)
  | [] => none
  | x :: xs => if x = b then some xs else afterFirst b xs

/-- The bytes strictly before the first occurrence of `b`, if any. -/
def beforeFirst (b : Nat) : List Nat → Option (List Nat)
  | [] => none
  | x :: xs => if x = b then some [] else (beforeFirst b xs).map (fun l => x :: l)

/-- Modelled from the spec: the non-empty hash-tag body of a key — the bytes
strictly between the first `{` (byte 123) and the first `}` (byte 125) after
it; `none` when there is no such pair or the body is empty. -/
def hashTagBody (key : List Nat) : Option (List Nat) :=
  (afterFirst 123 key).bind fun afterBrace =>
    (beforeFirst 125 afterBrace).bind fun body =>
      if body = [] then none else some body

/-- Modelled from the spec: `SlotRouter::key_to_slot` — CRC16 of the hash-tag
body when present, of the whole key otherwise, reduced mod 16384. -/
def key_to_slot (key : List Nat) : Nat :=
  crc16 (match hashTagBody key with | some body => body | none => key) % TOTAL_SLOTS

/-- `ClusterCommands::keyslot` (`CLUSTER KEYSLOT`); the argument frames are
raw byte lists. -/
def keyslot (args : List (List Nat)) : Except AikvError RespValue :=
  if args.length ≠ 1 then .error (.wrongArgCount "CLUSTER KEYSLOT")
  else .ok (.integer (key_to_slot args[0]!))

/-! ## CLUSTER INFO (`ClusterCommands::info`) -/

/-- `cluster_size`: the number of distinct node ids appearing in the slot
vector (the Rust code collects them into a `HashSet`). -/
def clusterSize (st : ClusterState) : Nat :=
  (st.slot_assignments.filterMap id).dedup.length

/-- The line terminator of the INFO body. -/
def crlf : String := "\r\n"

/-- The body of the CLUSTER INFO reply, translated from the single `format!`
template of `ClusterCommands::info` (the template is split at its line
boundaries). -/
def infoBody (st : ClusterState) : String :=
  let cluster_state :=
    if all_slots_assigned st && !(st.nodes.isEmpty) then "ok" else "fail"
  let assigned := assigned_slots_count st
  "cluster_state:" ++ cluster_state ++ crlf ++
  "cluster_slots_assigned:" ++ natStr assigned ++ crlf ++
  "cluster_slots_ok:" ++ natStr assigned ++ crlf ++
  "cluster_slots_pfail:0" ++ crlf ++
  "cluster_slots_fail:0" ++ crlf ++
  "cluster_known_nodes:" ++ natStr (Nat.max st.nodes.length 1) ++ crlf ++
  "cluster_size:" ++ natStr (clusterSize st) ++ crlf ++
  "cluster_current_epoch:" ++ natStr st.config_epoch ++ crlf ++
  "cluster_my_epoch:" ++ natStr st.config_epoch ++ crlf ++
  "cluster_stats_messages_sent:0" ++ crlf ++
  "cluster_stats_messages_received:0" ++ crlf

/-- `ClusterCommands::info` (`CLUSTER INFO`). -/
def info (st : ClusterState) (_args : List String) : Except AikvError RespValue :=
  .ok (.bulkString (some (infoBody st)))

/-- Split a character list at every `"\r\n"`, the line structure of the INFO
body (a lone `'\r'` not followed by `'\n'` stays in its line). -/
def splitCRLF : List Char → List (List Char)
  | [] => [[]]
  | [c] => [[c]]
  | c :: c2 :: rest =>
    if c = '\r' ∧ c2 = '\n' then [] :: splitCRLF rest
    else
      match splitCRLF (c2 :: rest) with
      | [] => [[c]]
      | l :: ls => (c :: l) :: ls

/-- The lines of the CLUSTER INFO body. -/
def infoLines (st : ClusterState) : List (List Char) :=
  splitCRLF (infoBody st).data

/-! ## SHA-1

`ScriptCommands::calculate_sha1` delegates to the `sha1` crate; the standard
SHA-1 algorithm is embedded here executably (32-bit words as `Nat` with
explicit `% 2^32`). -/

/-- UTF-8 encoding of one character (RFC 3629), as byte values. -/
def utf8Bytes (c : Char) : List Nat :=
  let n := c.toNat
  if n < 128 then [n]
  else if n < 2048 then [192 + n / 64, 128 + n % 64]
  else if n < 65536 then [224 + n / 4096, 128 + n / 64 % 64, 128 + n % 64]
  else [240 + n / 262144, 128 + n / 4096 % 64, 128 + n / 64 % 64, 128 + n % 64]

/-- UTF-8 bytes of a string (Rust `str::as_bytes`). -/
def strBytes (s : String) : List Nat :=
  s.data.flatMap utf8Bytes

/-- Left rotation of a 32-bit word. -/
def rotl32 (x n : Nat) : Nat :=
  ((x <<< n) ||| (x >>> (32 - n))) % 4294967296

/-- Big-endian 8-byte rendering of a (64-bit) value. -/
def beBytes8 (n : Nat) : List Nat :=
  [n >>> 56 % 256, n >>> 48 % 256, n >>> 40 % 256, n >>> 32 % 256,
   n >>> 24 % 256, n >>> 16 % 256, n >>> 8 % 256, n % 256]

/-- SHA-1 message padding: append `0x80`, zeros to 56 mod 64, then the bit
length as 8 big-endian bytes. -/
def sha1Pad (msg : List Nat) : List Nat :=
  msg ++ [128] ++ List.replicate ((119 - msg.length % 64) % 64) 0 ++
    beBytes8 (msg.length * 8)

/-- Pack bytes into big-endian 32-bit words (the input length is a multiple
of 4). -/
def bytesToWords : List Nat → List Nat
  | b0 :: b1 :: b2 :: b3 :: rest =>
    (((b0 * 256 + b1) * 256 + b2) * 256 + b3) :: bytesToWords rest
  | _ => []

/-- The running state of the SHA-1 compression function. -/
structure Sha1State where
  h0 : Nat
  h1 : Nat
  h2 : Nat
  h3 : Nat
  h4 : Nat

/-- Message-schedule extension: append the next derived word `fuel` times
(`fuel = 64` extends the 16 input words to the full 80). -/
def sha1Extend : Nat → Array Nat → Array Nat
  | 0, w => w
  | fuel + 1, w =>
    sha1Extend fuel
      (w.push (rotl32 ((w.getD (w.size - 3) 0 ^^^ w.getD (w.size - 8) 0) ^^^
        (w.getD (w.size - 14) 0 ^^^ w.getD (w.size - 16) 0)) 1))

/-- One of the 80 SHA-1 rounds. -/
def sha1Round (w : Array Nat) (st : Nat × Nat × Nat × Nat × Nat) (i : Nat) :
    Nat × Nat × Nat × Nat × Nat :=
  let (a, b, c, d, e) := st
  let f :=
    if i < 20 then ((b &&& c) ||| (((4294967295 - b) &&& d))) % 4294967296
    else if i < 40 then ((b ^^^ c) ^^^ d) % 4294967296
    else if i < 60 then ((b &&& c) ||| (b &&& d) ||| (c &&& d)) % 4294967296
    else ((b ^^^ c) ^^^ d) % 4294967296
  let k :=
    if i < 20 then 1518500249
    else if i < 40 then 1859775393
    else if i < 60 then 2400959708
    else 3395469782
  let temp := (rotl32 a 5 + f + e + k + w.getD i 0) % 4294967296
  (temp, a, rotl32 b 30, c, d)

/-- Process one 64-byte chunk. -/
def sha1Chunk (st : Sha1State) (chunk : List Nat) : Sha1State :=
  let w := sha1Extend 64 (bytesToWords chunk).toArray
  let (a, b, c, d, e) :=
    (List.range 80).foldl (sha1Round w) (st.h0, st.h1, st.h2, st.h3, st.h4)
  { h0 := (st.h0 + a) % 4294967296
    h1 := (st.h1 + b) % 4294967296
    h2 := (st.h2 + c) % 4294967296
    h3 := (st.h3 + d) % 4294967296
    h4 := (st.h4 + e) % 4294967296 }

/-- Process the padded message 64 bytes at a time (the fuel dominates the
number of chunks). -/
def sha1ChunksAux : Nat → Sha1State → List Nat → Sha1State
  | 0, st, _ => st
  | fuel + 1, st, msg =>
    if msg.isEmpty then st
    else sha1ChunksAux fuel (sha1Chunk st (msg.take 64)) (msg.drop 64)

/-- Process the whole padded message. -/
def sha1Chunks (st : Sha1State) (msg : List Nat) : Sha1State :=
  sha1ChunksAux msg.length st msg

/-- Lowercase hexadecimal digit. -/
def hexChar (n : Nat) : Char :=
  if n < 10 then Char.ofNat (48 + n) else Char.ofNat (87 + n % 16)

/-- Eight lowercase hex digits of a 32-bit word. -/
def hex8 (n : Nat) : List Char :=
  [hexChar (n >>> 28 % 16), hexChar (n >>> 24 % 16), hexChar (n >>> 20 % 16),
   hexChar (n >>> 16 % 16), hexChar (n >>> 12 % 16), hexChar (n >>> 8 % 16),
   hexChar (n >>> 4 % 16), hexChar (n % 16)]

/-- SHA-1 digest of a byte list, rendered as 40 lowercase hex characters. -/
def sha1Hex (msg : List Nat) : String :=
  let st := sha1Chunks
    { h0 := 1732584193, h1 := 4023233417, h2 := 2562383102,
      h3 := 271733878, h4 := 3285377520 }
    (sha1Pad msg)
  ⟨hex8 st.h0 ++ hex8 st.h1 ++ hex8 st.h2 ++ hex8 st.h3 ++ hex8 st.h4⟩

/-- `ScriptCommands::calculate_sha1`. -/
def calculate_sha1 (script : String) : String :=
  sha1Hex (strBytes script)

/-! ## Script cache and the script commands (`src/command/script.rs`)

The script cache (`HashMap<String, CachedScript>`) is an association list
from hex digest to source; the sandboxed Lua execution
(`ScriptCommands::execute_script`) is a parameter `exec` of the command
functions — both EVAL and EVALSHA funnel into the same call, which is what
the equivalence claims are about. -/

/-- The script cache: digest → verbatim source. -/
abbrev ScriptCache := List (String × String)

/-- First-match lookup on the script cache. -/
def clookup (cache : ScriptCache) (sha : String) : Option String :=
  match cache.find? (fun p => p.1 == sha) with
  | some p => some p.2
  | none => none

/-- `HashMap::insert` on the script cache. -/
def cinsert (cache : ScriptCache) (sha script : String) : ScriptCache :=
  (sha, script) :: cache.filter (fun p => p.1 != sha)

/-- The type of the sandboxed script execution
(`execute_script(script, keys, argv, db_index)`). -/
abbrev ScriptExec := String → List String → List String → Nat → Except AikvError RespValue

/-- `ScriptCommands::eval` (EVAL script numkeys key… arg…).  The
`args.len() < 2` guard of the source is rendered as the match shape; with
`args = script :: numkeysStr :: rest`, the source's `args.len() < 2 + numkeys`
check is `rest.length < numkeys`, its keys slice `args[2..2+numkeys]` is
`rest.take numkeys` and its argv slice `args[2+numkeys..]` is
`rest.drop numkeys`. -/
def evalCmd (exec : ScriptExec) (args : List String) (db_index : Nat) :
    Except AikvError RespValue :=
  match args with
  | script :: numkeysStr :: rest =>
    match parseUsize numkeysStr with
    | none => .error (.invalidArgument "numkeys must be a number")
    | some numkeys =>
      if rest.length < numkeys then
        .error (.invalidArgument "Number of keys doesn\x27t match numkeys parameter")
      else
        exec script (rest.take numkeys) (rest.drop numkeys) db_index
  | _ => .error (.wrongArgCount "EVAL")

/-- `ScriptCommands::evalsha` (EVALSHA sha1 numkeys key… arg…); argument
handling as in `evalCmd`. -/
def evalshaCmd (exec : ScriptExec) (cache : ScriptCache) (args : List String)
    (db_index : Nat) : Except AikvError RespValue :=
  match args with
  | sha1 :: numkeysStr :: rest =>
    match parseUsize numkeysStr with
    | none => .error (.invalidArgument "numkeys must be a number")
    | some numkeys =>
      if rest.length < numkeys then
        .error (.invalidArgument "Number of keys doesn\x27t match numkeys parameter")
      else
        match clookup cache sha1 with
        | none => .error (.invalidArgument "NOSCRIPT No matching script. Use EVAL.")
        | some script =>
          exec script (rest.take numkeys) (rest.drop numkeys) db_index
  | _ => .error (.wrongArgCount "EVALSHA")

/-- `ScriptCommands::script_load` (SCRIPT LOAD): returns the reply together
with the successor cache. -/
def script_load (cache : ScriptCache) (args : List String) :
    Except AikvError (RespValue × ScriptCache) :=
  if args.length ≠ 1 then .error (.wrongArgCount "SCRIPT LOAD")
  else
    let script := args[0]!
    let sha1 := calculate_sha1 script
    .ok (.bulkString (some sha1), cinsert cache sha1 script)

/-- `ScriptCommands::script_exists` (SCRIPT EXISTS sha…). -/
def script_exists (cache : ScriptCache) (args : List String) :
    Except AikvError RespValue :=
  if args.isEmpty then .error (.wrongArgCount "SCRIPT EXISTS")
  else
    .ok (.array (some (args.map (fun sha =>
      .integer (if (clookup cache sha).isSome then 1 else 0)))))

/-- `ScriptCommands::script_flush` (SCRIPT FLUSH): clears the cache. -/
def script_flush (_cache : ScriptCache) (_args : List String) :
    Except AikvError (RespValue × ScriptCache) :=
  .ok (.simpleString "OK", [])

/-! ## Lua → RESP result conversion -/

/-- The interpreter's value domain as far as `lua_to_resp` consumes it.  The
`Number` (floating-point) arm of the Rust function is outside the scope of
the shallow embedding and is omitted; no claim touches it. -/
inductive LuaValue where
  | nil
  | boolean (b : Bool)
  | integer (i : Int)
  | str (s : String)
  | table (items : List LuaValue)

/-- `ScriptCommands::lua_to_resp`: script-result conversion from the
interpreter's value domain to RESP.  The table arm iterates the sequence part
(indices `1..len`), which for the list model is a map over the items. -/
def lua_to_resp : LuaValue → Except AikvError RespValue
  | .nil => .ok .null
  | .boolean b => .ok (.integer (if b then 1 else 0))
  | .integer i => .ok (.integer i)
  | .str s => .ok (.bulkString (some s))
  | .table items =>
    match itemsToResp items with
    | .ok rs => .ok (.array (some rs))
    | .error e => .error e
where
  /-- Conversion of the sequence part of a table. -/
  itemsToResp : List LuaValue → Except AikvError (List RespValue)
  | [] => .ok []
  | v :: rest =>
    match lua_to_resp v, itemsToResp rest with
    | .ok r, .ok rs => .ok (r :: rs)
    | .error e, _ => .error e
    | _, .error e => .error e

/-! # Theorems -/

/-! ## Epoch lemmas: every success path of every mutation bumps the epoch -/

theorem meet_epoch {hashAddr : String → Nat} {st : ClusterState}
    {args : List String} {v : RespValue} {st' : ClusterState}
    (h : meet hashAddr st args = .ok (v, st')) :
    st'.config_epoch = st.config_epoch + 1 := by
  unfold meet at h
  iterate 8 (all_goals try split at h)
  all_goals simp_all
  all_goals (obtain ⟨-, hst⟩ := h; subst hst; rfl)

theorem forget_epoch {nid : Option Nat} {st : ClusterState}
    {args : List String} {v : RespValue} {st' : ClusterState}
    (h : forget nid st args = .ok (v, st')) :
    st'.config_epoch = st.config_epoch + 1 := by
  unfold forget at h
  split at h
  · simp at h
  · cases hp : parseHexU64 args[0]! <;> simp only [hp] at h
    · simp at h
    · split at h
      · simp at h
      · split at h
        · simp at h
        · simp only [Except.ok.injEq, Prod.mk.injEq] at h
          obtain ⟨-, hst⟩ := h
          subst hst
          rfl

theorem addslots_epoch {nid : Option Nat} {st : ClusterState}
    {args : List String} {v : RespValue} {st' : ClusterState}
    (h : addslots nid st args = .ok (v, st')) :
    st'.config_epoch = st.config_epoch + 1 := by
  unfold addslots at h
  iterate 8 (all_goals try split at h)
  all_goals simp_all
  all_goals (obtain ⟨-, hst⟩ := h; subst hst; rfl)

theorem delslots_epoch {nid : Option Nat} {st : ClusterState}
    {args : List String} {v : RespValue} {st' : ClusterState}
    (h : delslots nid st args = .ok (v, st')) :
    st'.config_epoch = st.config_epoch + 1 := by
  unfold delslots at h
  iterate 8 (all_goals try split at h)
  all_goals simp_all
  all_goals (obtain ⟨-, hst⟩ := h; subst hst; rfl)

theorem setslot_epoch {nid : Option Nat} {st : ClusterState}
    {args : List String} {v : RespValue} {st' : ClusterState}
    (h : setslot nid st args = .ok (v, st')) :
    st'.config_epoch = st.config_epoch + 1 := by
  unfold setslot at h
  iterate 8 (all_goals try split at h)
  all_goals simp_all
  all_goals (obtain ⟨-, hst⟩ := h; subst hst; rfl)

/-- C3: for every successful invocation of CLUSTER MEET, FORGET, ADDSLOTS,
DELSLOTS, or SETSLOT (any subcommand), the configuration epoch of the cluster
state after the call is strictly greater than the epoch before the call. -/
theorem mutation_epoch_strictly_increases (hashAddr : String → Nat)
    (nid : Option Nat) (st : ClusterState) (c : MutCmd) (v : RespValue)
    (st' : ClusterState) (h : runMut hashAddr nid st c = .ok (v, st')) :
    st.config_epoch < st'.config_epoch := by
  cases c <;> simp only [runMut] at h
  · rw [meet_epoch h]; omega
  · rw [forget_epoch h]; omega
  · rw [addslots_epoch h]; omega
  · rw [delslots_epoch h]; omega
  · rw [setslot_epoch h]; omega

/-- A constant stand-in for the address hasher, used to instantiate the
universally quantified theorems on concrete inputs. -/
def constHash : String → Nat := fun _ => 7

/-- Witness for C3: CLUSTER SETSLOT 0 STABLE on a fresh state bumps the epoch
from 0 to 1. -/
theorem mutation_epoch_strictly_increases_witness :
    ClusterState.new.config_epoch <
      (ClusterState.mk [] (List.replicate TOTAL_SLOTS none) [] [] 1).config_epoch :=
  mutation_epoch_strictly_increases constHash (some 1) ClusterState.new
    (.setslot ["0", "STABLE"]) (.simpleString "OK") _ (by rfl)

/-! ## Script result conversion (C5) -/

/-- C5: the claim (and the spec) say the script-result conversion maps the
boolean false to RESP Null; the code maps it to Integer 0 (and true to
Integer 1).  This theorem evaluates `lua_to_resp` at the divergent input. -/
theorem lua_to_resp_boolean_false_is_integer_zero :
    lua_to_resp (.boolean false) = .ok (.integer 0)
    ∧ lua_to_resp (.boolean true) = .ok (.integer 1)
    ∧ (Except.ok (RespValue.integer 0) : Except AikvError RespValue) ≠ .ok .null := by
  refine ⟨rfl, rfl, ?_⟩
  intro hcontra
  injection hcontra with hv
  exact RespValue.noConfusion hv

/-! ## SHA-1 cross-checks

The unit tests of `src/command/script.rs` pin the digests of two scripts; the
embedded SHA-1 reproduces both (and the standard `"abc"` vector). -/

set_option maxRecDepth 100000 in
set_option maxHeartbeats 2000000 in
theorem calculate_sha1_return_1 :
    calculate_sha1 "return 1" = "e0e1f9fabfc9d4800c877a703b823ac0578ff8db" := by
  decide

set_option maxRecDepth 100000 in
set_option maxHeartbeats 2000000 in
theorem calculate_sha1_return_hello :
    calculate_sha1 "return \x27hello\x27" = "1b936e3fe509bcbc9cd0664897bbe8fd0cac101b" := by
  decide

/-! ## Script cache (C8) -/

/-- Lookup after insert with the same key. -/
theorem clookup_cinsert_self (cache : ScriptCache) (sha script : String) :
    clookup (cinsert cache sha script) sha = some script := by
  simp [clookup, cinsert, List.find?]

/-- C8: SCRIPT LOAD of `s` returns the lowercase hex SHA-1 digest of `s` as a
BulkString and stores `s` under it; SCRIPT EXISTS on that digest then returns
Integer 1; after SCRIPT FLUSH, SCRIPT EXISTS returns Integer 0 for every
digest. -/
theorem script_load_exists_flush (cache flushed : ScriptCache) (s d : String) :
    script_load cache [s] =
      .ok (.bulkString (some (calculate_sha1 s)), cinsert cache (calculate_sha1 s) s)
    ∧ script_exists (cinsert cache (calculate_sha1 s) s) [calculate_sha1 s] =
      .ok (.array (some [.integer 1]))
    ∧ script_flush flushed [] = .ok (.simpleString "OK", ([] : ScriptCache))
    ∧ script_exists ([] : ScriptCache) [d] = .ok (.array (some [.integer 0])) := by
  refine ⟨?_, ?_, rfl, ?_⟩
  · simp [script_load]
  · simp [script_exists, clookup_cinsert_self]
  · simp [script_exists, clookup]

/-! ## EVALSHA / EVAL equivalence (C6) -/

/-- C6: with the source `s` cached under digest `h`, EVALSHA `h` behaves
exactly as EVAL `s` on every numkeys frame, key/arg frames and database
index; and when `h` is absent from the cache, a well-formed EVALSHA fails
with the NOSCRIPT error without invoking the script engine. -/
theorem evalsha_equals_eval (exec : ScriptExec) (cache : ScriptCache)
    (h s nk : String) (frames : List String) (db k : Nat) :
    (clookup cache h = some s →
      evalshaCmd exec cache (h :: nk :: frames) db =
        evalCmd exec (s :: nk :: frames) db)
    ∧ (clookup cache h = none → parseUsize nk = some k → k ≤ frames.length →
      evalshaCmd exec cache (h :: nk :: frames) db =
        .error (.invalidArgument "NOSCRIPT No matching script. Use EVAL.")) := by
  constructor
  · intro hc
    simp only [evalshaCmd, evalCmd, hc]
  · intro hc hp hlen
    have hk : ¬ (frames.length < k) := by omega
    simp only [evalshaCmd, hc, hp, hk, if_false]

/-- A trivial stand-in for the sandboxed script engine, used to instantiate
the universally quantified script theorems on concrete inputs. -/
def constExec : ScriptExec := fun _ _ _ _ => .ok .null

/-! ## Hash-tag slot coherence (C4) -/

/-- `beforeFirst` never includes its delimiter. -/
theorem beforeFirst_not_mem {b : Nat} :
    ∀ {l body : List Nat}, beforeFirst b l = some body → b ∉ body := by
  intro l
  induction l with
  | nil => intro body h; simp [beforeFirst] at h
  | cons x xs ih =>
    intro body h
    by_cases hx : x = b
    · simp [beforeFirst, hx] at h
      subst h
      simp
    · simp [beforeFirst, hx] at h
      obtain ⟨body', hb', rfl⟩ := h
      intro hmem
      rcases List.mem_cons.mp hmem with h1 | h1
      · exact hx h1.symm
      · exact ih hb' h1

/-- Everything after the first delimiter is part of the original list. -/
theorem afterFirst_mem {b : Nat} :
    ∀ {l r : List Nat}, afterFirst b l = some r → ∀ x ∈ r, x ∈ l := by
  intro l
  induction l with
  | nil => intro r h; simp [afterFirst] at h
  | cons y ys ih =>
    intro r h x hx
    by_cases hy : y = b
    · simp [afterFirst, hy] at h
      subst h
      exact List.mem_cons_of_mem _ hx
    · simp [afterFirst, hy] at h
      exact List.mem_cons_of_mem _ (ih h x hx)

/-- A list without the delimiter has no prefix before it. -/
theorem beforeFirst_eq_none {b : Nat} :
    ∀ {l : List Nat}, b ∉ l → beforeFirst b l = none := by
  intro l
  induction l with
  | nil => intro _; rfl
  | cons x xs ih =>
    intro h
    have hx : x ≠ b := fun he => h (he ▸ List.mem_cons_self x xs)
    have hxs : b ∉ xs := fun hm => h (List.mem_cons_of_mem _ hm)
    simp [beforeFirst, hx, ih hxs]

/-- A produced hash-tag body is non-empty and free of the closing brace. -/
theorem hashTagBody_shape {k body : List Nat} (h : hashTagBody k = some body) :
    125 ∉ body ∧ body ≠ [] := by
  unfold hashTagBody at h
  cases ha : afterFirst 123 k with
  | none => rw [ha] at h; simp at h
  | some rest =>
    rw [ha] at h
    simp only [Option.some_bind] at h
    cases hb : beforeFirst 125 rest with
    | none => rw [hb] at h; simp at h
    | some body' =>
      rw [hb] at h
      simp only [Option.some_bind] at h
      by_cases hbe : body' = []
      · simp [hbe] at h
      · simp [hbe] at h
        subst h
        exact ⟨beforeFirst_not_mem hb, hbe⟩

/-- A hash-tag body, hashed as a key of its own, has no hash tag: it contains
no closing brace, so it falls back to whole-key hashing. -/
theorem hashTagBody_of_body {body : List Nat} (h125 : 125 ∉ body) :
    hashTagBody body = none := by
  unfold hashTagBody
  cases ha : afterFirst 123 body with
  | none => rfl
  | some r =>
    have hr : 125 ∉ r := fun hx => h125 (afterFirst_mem ha _ hx)
    simp [beforeFirst_eq_none hr]

/-- C4: two keys with the same non-empty hash-tag body map to the same slot,
which is also the slot of the body alone, and CLUSTER KEYSLOT reports it as
an Integer in [0, 16383]. -/
theorem cluster_keyslot_hash_tag (k1 k2 body : List Nat)
    (h1 : hashTagBody k1 = some body) (h2 : hashTagBody k2 = some body) :
    key_to_slot k1 = key_to_slot k2
    ∧ key_to_slot k1 = key_to_slot body
    ∧ keyslot [k1] = .ok (.integer (key_to_slot k1))
    ∧ key_to_slot k1 < 16384 := by
  have e1 : key_to_slot k1 = crc16 body % TOTAL_SLOTS := by
    unfold key_to_slot; rw [h1]
  have e2 : key_to_slot k2 = crc16 body % TOTAL_SLOTS := by
    unfold key_to_slot; rw [h2]
  have eb : key_to_slot body = crc16 body % TOTAL_SLOTS := by
    unfold key_to_slot; rw [hashTagBody_of_body (hashTagBody_shape h1).1]
  refine ⟨e1.trans e2.symm, e1.trans eb.symm, by simp [keyslot], ?_⟩
  rw [e1]
  exact Nat.mod_lt _ (by decide)

/-! ## Slot-vector helper lemmas -/

/-- Assigning a batch of slots keeps the vector length. -/
theorem foldl_set_length (slots : List Nat) (sa : List (Option Nat)) (v : Option Nat) :
    (slots.foldl (fun sa slot => sa.set slot v) sa).length = sa.length := by
  induction slots generalizing sa with
  | nil => rfl
  | cons a rest ih => simp [List.foldl_cons, ih]

/-- A batch assignment leaves untouched indices unchanged. -/
theorem foldl_set_getElem?_of_not_mem (slots : List Nat) (sa : List (Option Nat))
    (v : Option Nat) (s : Nat) (hs : s ∉ slots) :
    (slots.foldl (fun sa slot => sa.set slot v) sa)[s]? = sa[s]? := by
  induction slots generalizing sa with
  | nil => rfl
  | cons a rest ih =>
    simp only [List.foldl_cons]
    have ha : a ≠ s := fun he => hs (he ▸ List.mem_cons_self a rest)
    have hr : s ∉ rest := fun hm => hs (List.mem_cons_of_mem _ hm)
    rw [ih _ hr, List.getElem?_set_ne ha]

/-- Every in-range slot of the batch ends up assigned to `v`. -/
theorem foldl_set_getElem?_of_mem (slots : List Nat) (sa : List (Option Nat))
    (v : Option Nat) (s : Nat) (hmem : s ∈ slots) (hlt : s < sa.length) :
    (slots.foldl (fun sa slot => sa.set slot v) sa)[s]? = some v := by
  induction slots generalizing sa with
  | nil => cases hmem
  | cons a rest ih =>
    simp only [List.foldl_cons]
    by_cases hr : s ∈ rest
    · exact ih _ hr (by simpa using hlt)
    · have hsa : s = a := by
        rcases List.mem_cons.mp hmem with h | h
        · exact h
        · exact absurd h hr
      subst hsa
      rw [foldl_set_getElem?_of_not_mem _ _ _ _ hr, List.getElem?_set_eq hlt]

/-- Setting an index to the value it already holds is the identity. -/
theorem set_self_getElem? (sa : List (Option Nat)) (i : Nat) (v : Option Nat)
    (h : sa[i]? = some v) : sa.set i v = sa := by
  obtain ⟨hlt, -⟩ := List.getElem?_eq_some.mp h
  apply List.ext_getElem?_iff.mpr
  intro n
  by_cases hin : i = n
  · subst hin
    rw [List.getElem?_set_eq hlt, h]
  · rw [List.getElem?_set_ne hin]

/-- A batch assignment of already-held values is the identity. -/
theorem foldl_set_id (slots : List Nat) (sa : List (Option Nat)) (v : Option Nat)
    (h : ∀ s ∈ slots, sa[s]? = some v) :
    slots.foldl (fun sa slot => sa.set slot v) sa = sa := by
  induction slots generalizing sa with
  | nil => rfl
  | cons a rest ih =>
    simp only [List.foldl_cons]
    rw [set_self_getElem? _ _ _ (h a (List.mem_cons_self a rest)),
      ih _ (fun s hs => h s (List.mem_cons_of_mem _ hs))]

/-- Every slot accepted by the ADDSLOTS/DELSLOTS validation loop is below
16384. -/
theorem parseSlotArgs_lt :
    ∀ {args : List String} {slots : List Nat},
      parseSlotArgs args = .ok slots → ∀ s ∈ slots, s < TOTAL_SLOTS := by
  intro args
  induction args with
  | nil =>
    intro slots hp
    simp only [parseSlotArgs, Except.ok.injEq] at hp
    subst hp
    simp
  | cons a rest ih =>
    intro slots hp
    simp only [parseSlotArgs] at hp
    rcases hpa : parseU16 a with - | slot
    · simp [hpa] at hp
    · simp only [hpa] at hp
      by_cases hge : slot ≥ TOTAL_SLOTS
      · simp [hge] at hp
      · rw [if_neg hge] at hp
        rcases hrest : parseSlotArgs rest with e | slots'
        · simp [hrest, Except.map] at hp
        · simp only [hrest, Except.map, Except.ok.injEq] at hp
          subst hp
          intro s hs
          rcases List.mem_cons.mp hs with h | h
          · omega
          · exact ih hrest s h

/-! ## CLUSTER ADDSLOTS: atomicity (C2) and self-idempotence (C10) -/

/-- Shape of every successful ADDSLOTS invocation. -/
theorem addslots_ok_shape {my : Nat} {st : ClusterState} {args : List String}
    {v : RespValue} {st' : ClusterState}
    (h : addslots (some my) st args = .ok (v, st')) :
    ∃ slots, parseSlotArgs args = .ok slots
      ∧ slots.find? (busyForOther st my) = none
      ∧ v = .simpleString "OK"
      ∧ st' = { st with
          slot_assignments := slots.foldl
            (fun sa slot => sa.set slot (some my)) st.slot_assignments
          config_epoch := st.config_epoch + 1 } := by
  unfold addslots at h
  split at h
  · simp at h
  · rcases hps : parseSlotArgs args with e | slots
    · simp [hps] at h
    · simp only [hps] at h
      rcases hf : slots.find? (busyForOther st my) with - | n
      · simp only [hf, Except.ok.injEq, Prod.mk.injEq] at h
        obtain ⟨hv, hst⟩ := h
        exact ⟨slots, rfl, hf, hv.symm, hst.symm⟩
      · simp [hf] at h

/-- C2: ADDSLOTS is atomic.  If some requested slot is assigned to a node
other than the local one, the command fails with `Slot <n> is already busy`
(for such a slot `n`) and the cluster state — slot assignments and epoch —
is untouched; otherwise it succeeds and every requested slot is assigned to
the local node, with the epoch bumped by one. -/
theorem addslots_atomic (my : Nat) (st : ClusterState) (args : List String)
    (slots : List Nat) (hashAddr : String → Nat)
    (hp : parseSlotArgs args = .ok slots) (hne : args ≠ [])
    (hlen : st.slot_assignments.length = TOTAL_SLOTS) :
    ((∃ s ∈ slots, busyForOther st my s = true) →
      ∃ n, n ∈ slots ∧ busyForOther st my n = true
        ∧ addslots (some my) st args =
            .error (.invalidArgument ("Slot " ++ natStr n ++ " is already busy"))
        ∧ stepMut hashAddr (some my) st (.addslots args) = st)
    ∧ ((∀ s ∈ slots, busyForOther st my s = false) →
      ∃ st', addslots (some my) st args = .ok (.simpleString "OK", st')
        ∧ (∀ s ∈ slots, st'.slot_assignments[s]? = some (some my))
        ∧ st'.config_epoch = st.config_epoch + 1) := by
  have hne' : args.isEmpty = false := by
    cases args
    · exact absurd rfl hne
    · rfl
  constructor
  · intro hbusy
    have hsome : (slots.find? (busyForOther st my)).isSome :=
      List.find?_isSome.mpr (by simpa using hbusy)
    obtain ⟨n, hfind⟩ := Option.isSome_iff_exists.mp hsome
    have heq : addslots (some my) st args =
        .error (.invalidArgument ("Slot " ++ natStr n ++ " is already busy")) := by
      simp [addslots, hne', hp, hfind]
    refine ⟨n, List.mem_of_find?_eq_some hfind, List.find?_some hfind, heq, ?_⟩
    simp only [stepMut, runMut, heq]
  · intro hok
    have hfind : slots.find? (busyForOther st my) = none :=
      List.find?_eq_none.mpr (fun x hx => by simp [hok x hx])
    have heq : addslots (some my) st args = .ok (.simpleString "OK",
        { st with
            slot_assignments := slots.foldl
              (fun sa slot => sa.set slot (some my)) st.slot_assignments
            config_epoch := st.config_epoch + 1 }) := by
      simp [addslots, hne', hp, hfind]
    refine ⟨_, heq, fun s hs => ?_, rfl⟩
    exact foldl_set_getElem?_of_mem _ _ _ _ hs
      (by rw [hlen]; exact parseSlotArgs_lt hp s hs)

/-- A state in which slot 0 is owned by node 1 (the setting of the
repository's `test_cluster_addslots_already_assigned`). -/
def busyState : ClusterState :=
  { ClusterState.new with
      slot_assignments := (List.replicate TOTAL_SLOTS none).set 0 (some 1) }

/-- Witness for C2, both branches: node 2 adding slot 0 owned by node 1 fails
busy and changes nothing; node 1 adding the free slot 0 of a fresh state
succeeds and assigns it. -/
theorem addslots_atomic_witness :
    (∃ n, n ∈ [0] ∧ busyForOther busyState 2 n = true
      ∧ addslots (some 2) busyState ["0"] =
          .error (.invalidArgument ("Slot " ++ natStr n ++ " is already busy"))
      ∧ stepMut constHash (some 2) busyState (.addslots ["0"]) = busyState)
    ∧ (∃ st', addslots (some 1) ClusterState.new ["0"] = .ok (.simpleString "OK", st')
      ∧ (∀ s ∈ [0], st'.slot_assignments[s]? = some (some 1))
      ∧ st'.config_epoch = ClusterState.new.config_epoch + 1) :=
  ⟨(addslots_atomic 2 busyState ["0"] [0] constHash (by rfl) (by simp)
      (by simp [busyState, ClusterState.new])).1
    ⟨0, by simp, by rfl⟩,
   (addslots_atomic 1 ClusterState.new ["0"] [0] constHash (by rfl) (by simp)
      (by simp [ClusterState.new])).2
    (by decide)⟩

/-- C10: ADDSLOTS of slots already owned by the local node succeeds and
leaves the slot assignments unchanged (only the epoch moves); in particular
a successful ADDSLOTS run immediately repeated succeeds again with identical
slot assignments and the epoch one higher. -/
theorem addslots_self_idempotent (my : Nat) (st : ClusterState)
    (args : List String) (slots : List Nat)
    (hp : parseSlotArgs args = .ok slots) (hne : args ≠ [])
    (hlen : st.slot_assignments.length = TOTAL_SLOTS) :
    ((∀ s ∈ slots, st.slot_assignments[s]? = some (some my)) →
      addslots (some my) st args =
        .ok (.simpleString "OK", { st with config_epoch := st.config_epoch + 1 }))
    ∧ (∀ v1 st1, addslots (some my) st args = .ok (v1, st1) →
      ∃ st2, addslots (some my) st1 args = .ok (.simpleString "OK", st2)
        ∧ st2.slot_assignments = st1.slot_assignments
        ∧ st2.config_epoch = st1.config_epoch + 1) := by
  have hne' : args.isEmpty = false := by
    cases args
    · exact absurd rfl hne
    · rfl
  have owned_not_busy : ∀ (stx : ClusterState),
      (∀ s ∈ slots, stx.slot_assignments[s]? = some (some my)) →
      slots.find? (busyForOther stx my) = none := by
    intro stx hall
    refine List.find?_eq_none.mpr (fun s hs => ?_)
    simp [busyForOther, List.getD_eq_getElem?_getD, hall s hs]
  have run_on_owned : ∀ (stx : ClusterState),
      (∀ s ∈ slots, stx.slot_assignments[s]? = some (some my)) →
      addslots (some my) stx args =
        .ok (.simpleString "OK", { stx with config_epoch := stx.config_epoch + 1 }) := by
    intro stx hall
    have heq : addslots (some my) stx args = .ok (.simpleString "OK",
        { stx with
            slot_assignments := slots.foldl
              (fun sa slot => sa.set slot (some my)) stx.slot_assignments
            config_epoch := stx.config_epoch + 1 }) := by
      simp [addslots, hne', hp, owned_not_busy stx hall]
    rw [heq, foldl_set_id _ _ _ hall]
  constructor
  · exact fun hall => run_on_owned st hall
  · intro v1 st1 h1
    obtain ⟨slots', hp', -, -, hst1⟩ := addslots_ok_shape h1
    have hsl : slots' = slots := by
      rw [hp'] at hp
      exact (Except.ok.injEq _ _).mp hp
    rw [hsl] at hp' hst1
    have hall1 : ∀ s ∈ slots, st1.slot_assignments[s]? = some (some my) := by
      intro s hs
      rw [hst1]
      exact foldl_set_getElem?_of_mem _ _ _ _ hs
        (by rw [hlen]; exact parseSlotArgs_lt hp' s hs)
    exact ⟨_, run_on_owned st1 hall1, rfl, rfl⟩

/-- Witness for C10: after node 1 adds slot 0 on a fresh state, running the
same ADDSLOTS again succeeds, keeps the assignments, and only moves the
epoch from 1 to 2. -/
theorem addslots_self_idempotent_witness :
    ∃ st2,
      addslots (some 1)
        { nodes := ([] : List (Nat × NodeInfo))
          slot_assignments := (List.replicate TOTAL_SLOTS none).set 0 (some 1)
          slot_states := ([] : List (Nat × SlotState))
          migration_targets := ([] : List (Nat × Nat))
          config_epoch := 1 } ["0"] = .ok (.simpleString "OK", st2)
      ∧ st2.slot_assignments = (List.replicate TOTAL_SLOTS none).set 0 (some 1)
      ∧ st2.config_epoch = 2 :=
  (addslots_self_idempotent 1 ClusterState.new ["0"] [0] (by rfl) (by simp)
    (by simp [ClusterState.new])).2 (.simpleString "OK") _ (by rfl)

/-! ## Association-list lemmas -/

/-- Filtering out key `k` does not change lookups of other keys. -/
theorem find?_filter_ne {α : Type} (m : List (Nat × α)) (k k' : Nat) (hne : k' ≠ k) :
    (m.filter (fun p => p.1 != k)).find? (fun p => p.1 == k') =
      m.find? (fun p => p.1 == k') := by
  induction m with
  | nil => rfl
  | cons p rest ih =>
    by_cases hpk : p.1 = k
    · have h1 : (p.1 != k) = false := by simp [hpk]
      have h2 : (p.1 == k') = false := by
        simp only [beq_eq_false_iff_ne, ne_eq, hpk]
        exact fun h => hne h.symm
      simp [List.filter_cons, h1, List.find?_cons, h2, ih]
    · have h1 : (p.1 != k) = true := by simp [hpk]
      by_cases hpk' : p.1 = k'
      · have h2 : (p.1 == k') = true := by simp [hpk']
        simp [List.filter_cons, h1, List.find?_cons, h2]
      · have h2 : (p.1 == k') = false := by simp [hpk']
        simp [List.filter_cons, h1, List.find?_cons, h2, ih]

/-- Membership survives an insert. -/
theorem mcontains_minsert {α : Type} (m : List (Nat × α)) (k k' : Nat) (v : α)
    (h : mcontains m k' = true) : mcontains (minsert m k v) k' = true := by
  by_cases hkk : k' = k
  · subst hkk
    simp [mcontains, mlookup, minsert, List.find?_cons]
  · have h2 : (k == k') = false := by
      simp only [beq_eq_false_iff_ne, ne_eq]
      exact fun he => hkk he.symm
    simp only [mcontains, mlookup, minsert, List.find?_cons, h2]
    simpa [mcontains, mlookup, find?_filter_ne m k k' hkk] using h

/-- Membership of other keys survives a remove. -/
theorem mcontains_mremove_ne {α : Type} (m : List (Nat × α)) (k k' : Nat)
    (hne : k' ≠ k) (h : mcontains m k' = true) :
    mcontains (mremove m k) k' = true := by
  simpa [mcontains, mlookup, mremove, find?_filter_ne m k k' hne] using h

/-- Elements of a batch-assigned slot vector are old elements or the new
value. -/
theorem mem_foldl_set {slots : List Nat} {sa : List (Option Nat)}
    {v o : Option Nat} (h : o ∈ slots.foldl (fun sa slot => sa.set slot v) sa) :
    o ∈ sa ∨ o = v := by
  induction slots generalizing sa with
  | nil => exact Or.inl h
  | cons a rest ih =>
    rw [List.foldl_cons] at h
    rcases ih h with h1 | h1
    · rcases List.mem_or_eq_of_mem_set h1 with h2 | h2
      · exact Or.inl h2
      · exact Or.inr h2
    · exact Or.inr h1

/-! ## The slot-owner invariant (C1) -/

/-- Every node id referenced by a slot assignment exists in the node map. -/
def slotOwnersRegistered (st : ClusterState) : Prop :=
  ∀ o ∈ st.slot_assignments, ∀ id, o = some id → mcontains st.nodes id = true

/-- The inductive invariant: the handler's own id is registered, every slot
owner is registered, and the slot vector has its fixed length. -/
def GoodState (my : Nat) (st : ClusterState) : Prop :=
  mcontains st.nodes my = true ∧ slotOwnersRegistered st
    ∧ st.slot_assignments.length = TOTAL_SLOTS

/-- Shape of every successful MEET invocation. -/
theorem meet_ok_shape {hashAddr : String → Nat} {st : ClusterState}
    {args : List String} {v : RespValue} {st' : ClusterState}
    (h : meet hashAddr st args = .ok (v, st')) :
    ∃ nid info, st' = { st with nodes := minsert st.nodes nid info
                                config_epoch := st.config_epoch + 1 } := by
  unfold meet at h
  iterate 8 (all_goals try split at h)
  all_goals simp_all
  all_goals (obtain ⟨-, hst⟩ := h; exact ⟨_, _, hst.symm⟩)

/-- Shape of every successful FORGET invocation (with the handler id set). -/
theorem forget_ok_shape {my : Nat} {st : ClusterState} {args : List String}
    {v : RespValue} {st' : ClusterState}
    (h : forget (some my) st args = .ok (v, st')) :
    ∃ nid, nid ≠ my
      ∧ st' = { st with
          nodes := mremove st.nodes nid
          slot_assignments := st.slot_assignments.map
            (fun s => if s = some nid then none else s)
          config_epoch := st.config_epoch + 1 } := by
  unfold forget at h
  split at h
  · simp at h
  · rcases hp : parseHexU64 args[0]! with - | nid
    · simp [hp] at h
    · simp only [hp] at h
      split at h
      · simp at h
      · split at h
        · simp at h
        · rename_i hself _
          simp only [Except.ok.injEq, Prod.mk.injEq] at h
          obtain ⟨-, hst⟩ := h
          exact ⟨nid, by simpa using hself, hst.symm⟩

/-- Shape of every successful DELSLOTS invocation. -/
theorem delslots_ok_shape {nid : Option Nat} {st : ClusterState}
    {args : List String} {v : RespValue} {st' : ClusterState}
    (h : delslots nid st args = .ok (v, st')) :
    ∃ slots : List Nat, st' = { st with
        slot_assignments := slots.foldl
          (fun sa slot => sa.set slot none) st.slot_assignments
        slot_states := slots.foldl mremove st.slot_states
        migration_targets := slots.foldl mremove st.migration_targets
        config_epoch := st.config_epoch + 1 } := by
  unfold delslots at h
  split at h
  · simp at h
  · rcases hps : parseSlotArgs args with e | slots
    · simp [hps] at h
    · simp only [hps] at h
      rcases hf : slots.find? (ownedByOther st nid) with - | n
      · simp only [hf, Except.ok.injEq, Prod.mk.injEq] at h
        obtain ⟨-, hst⟩ := h
        exact ⟨slots, hst.symm⟩
      · simp [hf] at h

/-- Shape of every successful SETSLOT invocation: either the slot vector and
the node map are untouched, or (NODE) one slot is reassigned to a target that
is known or is the handler itself. -/
theorem setslot_ok_shape {nid : Option Nat} {st : ClusterState}
    {args : List String} {v : RespValue} {st' : ClusterState}
    (h : setslot nid st args = .ok (v, st')) :
    (st'.nodes = st.nodes ∧ st'.slot_assignments = st.slot_assignments)
    ∨ (∃ slot t, (mcontains st.nodes t = true ∨ nid = some t)
        ∧ st'.nodes = st.nodes
        ∧ st'.slot_assignments = st.slot_assignments.set slot (some t)) := by
  unfold setslot at h
  split at h
  · simp at h
  · rcases hs : parseU16 args[0]! with - | slot
    · simp [hs] at h
    · simp only [hs] at h
      split at h
      · simp at h
      · split at h
        · split at h
          · simp at h
          · rcases hp : parseHexU64 args[2]! with - | src
            · simp [hp] at h
            · simp only [hp, Except.ok.injEq, Prod.mk.injEq] at h
              obtain ⟨-, hst⟩ := h
              subst hst
              exact Or.inl ⟨rfl, rfl⟩
        · split at h
          · simp at h
          · rcases hp : parseHexU64 args[2]! with - | tgt
            · simp [hp] at h
            · simp only [hp, Except.ok.injEq, Prod.mk.injEq] at h
              obtain ⟨-, hst⟩ := h
              subst hst
              exact Or.inl ⟨rfl, rfl⟩
        · split at h
          · simp at h
          · rcases hp : parseHexU64 args[2]! with - | tgt
            · simp [hp] at h
            · simp only [hp] at h
              split at h
              · simp at h
              · rename_i hcond
                simp only [Except.ok.injEq, Prod.mk.injEq] at h
                obtain ⟨-, hst⟩ := h
                subst hst
                refine Or.inr ⟨slot, tgt, ?_, rfl, rfl⟩
                by_cases hc : mcontains st.nodes tgt = true
                · exact Or.inl hc
                · right
                  rcases not_and_or.mp hcond with h1 | h1
                  · exact absurd (by simpa using h1) hc
                  · simpa using h1
        · simp only [Except.ok.injEq, Prod.mk.injEq] at h
          obtain ⟨-, hst⟩ := h
          subst hst
          exact Or.inl ⟨rfl, rfl⟩
        · simp at h

/-- Every mutation command, run by a handler whose id is registered,
preserves the invariant (a failing command leaves the state unchanged). -/
theorem stepMut_preserves_good (hashAddr : String → Nat) (my : Nat)
    (st : ClusterState) (c : MutCmd) (hg : GoodState my st) :
    GoodState my (stepMut hashAddr (some my) st c) := by
  obtain ⟨hmy, hreg, hlen⟩ := hg
  unfold stepMut
  cases hr : runMut hashAddr (some my) st c with
  | error e => exact ⟨hmy, hreg, hlen⟩
  | ok p =>
    obtain ⟨v, st'⟩ := p
    cases c with
    | meet args =>
      simp only [runMut] at hr
      obtain ⟨nid, info, hst⟩ := meet_ok_shape hr
      subst hst
      refine ⟨mcontains_minsert _ _ _ _ hmy, ?_, hlen⟩
      intro o ho id hid
      exact mcontains_minsert _ _ _ _ (hreg o ho id hid)
    | forget args =>
      simp only [runMut] at hr
      obtain ⟨nid, hne, hst⟩ := forget_ok_shape hr
      subst hst
      refine ⟨mcontains_mremove_ne _ _ _ (Ne.symm hne) hmy, ?_, by simpa using hlen⟩
      intro o ho id hid
      obtain ⟨o0, ho0, hfo⟩ := List.mem_map.mp ho
      by_cases hon : o0 = some nid
      · rw [if_pos hon] at hfo
        rw [← hfo] at hid
        cases hid
      · rw [if_neg hon] at hfo
        subst hfo
        have hidn : id ≠ nid := by
          intro he
          exact hon (by rw [hid, he])
        exact mcontains_mremove_ne _ _ _ hidn (hreg o0 ho0 id hid)
    | addslots args =>
      simp only [runMut] at hr
      obtain ⟨slots, hps, hf, hv, hst⟩ := addslots_ok_shape hr
      subst hst
      refine ⟨hmy, ?_, by rw [foldl_set_length]; exact hlen⟩
      intro o ho id hid
      rcases mem_foldl_set ho with h1 | h1
      · exact hreg o h1 id hid
      · rw [h1] at hid
        obtain rfl : my = id := by simpa using hid
        exact hmy
    | delslots args =>
      simp only [runMut] at hr
      obtain ⟨slots, hst⟩ := delslots_ok_shape hr
      subst hst
      refine ⟨hmy, ?_, by rw [foldl_set_length]; exact hlen⟩
      intro o ho id hid
      rcases mem_foldl_set ho with h1 | h1
      · exact hreg o h1 id hid
      · rw [h1] at hid
        cases hid
    | setslot args =>
      simp only [runMut] at hr
      rcases setslot_ok_shape hr with ⟨hn, ha⟩ | ⟨slot, t, hcond, hn, ha⟩
      · refine ⟨by rw [hn]; exact hmy, ?_, by rw [ha]; exact hlen⟩
        intro o ho id hid
        rw [ha] at ho
        rw [hn]
        exact hreg o ho id hid
      · refine ⟨by rw [hn]; exact hmy, ?_, by rw [ha]; simpa using hlen⟩
        intro o ho id hid
        rw [ha] at ho
        rw [hn]
        rcases List.mem_or_eq_of_mem_set ho with h1 | h1
        · exact hreg o h1 id hid
        · rw [h1] at hid
          obtain rfl : t = id := by simpa using hid
          rcases hcond with hc | hc
          · exact hc
          · obtain rfl : my = t := by simpa using hc
            exact hmy

/-- The invariant survives any command sequence. -/
theorem applyMuts_good (hashAddr : String → Nat) (my : Nat) :
    ∀ (cmds : List MutCmd) (st : ClusterState), GoodState my st →
      GoodState my (applyMuts hashAddr (some my) cmds st) := by
  intro cmds
  induction cmds with
  | nil => exact fun st hg => hg
  | cons c rest ih =>
    intro st hg
    exact ih _ (stepMut_preserves_good hashAddr my st c hg)

/-- The invariant holds at the registered-self starting state. -/
theorem goodState_freshWithSelf (my : Nat) : GoodState my (freshWithSelf my) := by
  refine ⟨?_, ?_, ?_⟩
  · simp [freshWithSelf, mcontains, mlookup, minsert, ClusterState.new, List.find?]
  · intro o ho id hid
    have ho' : o = none :=
      List.eq_of_mem_replicate (by simpa [freshWithSelf, ClusterState.new] using ho)
    rw [ho'] at hid
    cases hid
  · simp [freshWithSelf, ClusterState.new]

/-- C1 counterexample: on a truly fresh `ClusterState` (empty node map), the
successful command `CLUSTER ADDSLOTS 0` run by a handler with node id 1
produces a state whose slot 0 names node 1, which is absent from the node
map. -/
theorem cluster_slot_invariant_counterexample :
    ∃ (v : RespValue) (st' : ClusterState),
      runMut constHash (some 1) ClusterState.new (.addslots ["0"]) = .ok (v, st')
      ∧ applyMuts constHash (some 1) [.addslots ["0"]] ClusterState.new = st'
      ∧ some 1 ∈ st'.slot_assignments
      ∧ st'.slot_assignments.length = TOTAL_SLOTS
      ∧ ¬ slotOwnersRegistered st' := by
  have h0 : ((List.replicate TOTAL_SLOTS none).set 0 (some (1 : Nat)))[0]? =
      some (some 1) :=
    List.getElem?_set_self (by rw [List.length_replicate]; unfold TOTAL_SLOTS; omega)
  have hmem : some (1 : Nat) ∈ (List.replicate TOTAL_SLOTS none).set 0 (some 1) :=
    List.getElem?_mem h0
  refine ⟨.simpleString "OK",
    ⟨[], (List.replicate TOTAL_SLOTS none).set 0 (some 1), [], [], 1⟩,
    by rfl, by rfl, hmem, by rw [List.length_set, List.length_replicate], ?_⟩
  intro hreg
  have := hreg (some 1) hmem 1 rfl
  simp [mcontains, mlookup] at this

/-- C1 (amended): starting instead from the state in which the handler's own
node id is registered (the state `ClusterCommands::with_node_id` builds, and
the state the server builds at startup), every sequence of CLUSTER mutation
commands keeps the slot vector at length 16384 with every assigned slot
naming a node present in the node map. -/
theorem cluster_slot_invariant_registered (hashAddr : String → Nat) (my : Nat)
    (cmds : List MutCmd) :
    (applyMuts hashAddr (some my) cmds (freshWithSelf my)).slot_assignments.length
      = TOTAL_SLOTS
    ∧ slotOwnersRegistered (applyMuts hashAddr (some my) cmds (freshWithSelf my)) := by
  obtain ⟨-, hreg, hlen⟩ :=
    applyMuts_good hashAddr my cmds (freshWithSelf my) (goodState_freshWithSelf my)
  exact ⟨hlen, hreg⟩

/-! ## CLUSTER INFO lines (C7) -/

/-- Concatenation of lines with CRLF terminators (the inverse of
`splitCRLF` on CR-free lines). -/
def joinCRLF : List (List Char) → List Char
  | [] => []
  | l :: ls => l ++ '\r' :: '\n' :: joinCRLF ls

theorem splitCRLF_ne_nil : ∀ l : List Char, splitCRLF l ≠ [] := by
  intro l
  match l with
  | [] => simp [splitCRLF]
  | [c] => simp [splitCRLF]
  | c :: c2 :: rest =>
    by_cases h : c = '\r' ∧ c2 = '\n'
    · simp [splitCRLF, h]
    · simp only [splitCRLF, if_neg h]
      cases splitCRLF (c2 :: rest) <;> simp

theorem splitCRLF_crlf (l : List Char) :
    splitCRLF ('\r' :: '\n' :: l) = [] :: splitCRLF l := by
  simp [splitCRLF]

theorem splitCRLF_cons_ne (c : Char) (l : List Char) (h : c ≠ '\r') :
    splitCRLF (c :: l) = (splitCRLF l).modifyHead (fun x => c :: x) := by
  match l with
  | [] => rfl
  | c2 :: rest =>
    have hcond : ¬ (c = '\r' ∧ c2 = '\n') := fun hx => h hx.1
    simp only [splitCRLF, if_neg hcond]
    rcases hs : splitCRLF (c2 :: rest) with - | ⟨x, xs⟩
    · exact absurd hs (splitCRLF_ne_nil _)
    · rfl

theorem splitCRLF_append (a : List Char) (l : List Char) (h : '\r' ∉ a) :
    splitCRLF (a ++ l) = (splitCRLF l).modifyHead (fun x => a ++ x) := by
  induction a with
  | nil =>
    rcases hs : splitCRLF l with - | ⟨x, xs⟩
    · exact absurd hs (splitCRLF_ne_nil _)
    · rw [List.nil_append, hs]
      rfl
  | cons c a' ih =>
    have hc : c ≠ '\r' := fun he => h (he ▸ List.mem_cons_self c a')
    have ha' : '\r' ∉ a' := fun hm => h (List.mem_cons_of_mem _ hm)
    rw [List.cons_append, splitCRLF_cons_ne c _ hc, ih ha']
    rcases hs : splitCRLF l with - | ⟨x, xs⟩
    · exact absurd hs (splitCRLF_ne_nil _)
    · rfl

/-- Splitting a CRLF-joined list of CR-free lines recovers the lines (plus
the empty tail after the final terminator). -/
theorem splitCRLF_joinCRLF :
    ∀ ls : List (List Char), (∀ l ∈ ls, '\r' ∉ l) →
      splitCRLF (joinCRLF ls) = ls ++ [[]] := by
  intro ls
  induction ls with
  | nil => intro _; rfl
  | cons l ls' ih =>
    intro h
    have hl : '\r' ∉ l := h l (List.mem_cons_self l ls')
    have hls' : ∀ x ∈ ls', '\r' ∉ x := fun x hx => h x (List.mem_cons_of_mem _ hx)
    show splitCRLF (l ++ '\r' :: '\n' :: joinCRLF ls') = (l :: ls') ++ [[]]
    rw [splitCRLF_append _ _ hl, splitCRLF_crlf, ih hls']
    simp

/-- Decimal digit runs never contain a carriage return. -/
theorem natCharsAux_no_cr : ∀ (fuel n : Nat), '\r' ∉ natCharsAux fuel n := by
  intro fuel
  induction fuel with
  | zero => intro n; simp [natCharsAux]
  | succ f ih =>
    intro n
    have hdig : ∀ m, m < 10 → Nat.digitChar m ≠ '\r' := by decide
    by_cases h : n < 10
    · simp only [natCharsAux, if_pos h]
      intro hm
      rcases List.mem_singleton.mp hm with he
      exact hdig n h he.symm
    · simp only [natCharsAux, if_neg h]
      intro hm
      rcases List.mem_append.mp hm with h1 | h1
      · exact ih _ h1
      · rcases List.mem_singleton.mp h1 with he
        exact hdig _ (Nat.mod_lt _ (by omega)) he.symm

theorem natChars_no_cr (n : Nat) : '\r' ∉ natChars n :=
  natCharsAux_no_cr (n + 1) n

/-- The eleven lines of the INFO body. -/
def infoLinesSpec (st : ClusterState) : List (List Char) :=
  let cs := if all_slots_assigned st && !(st.nodes.isEmpty) then "ok" else "fail"
  let a := assigned_slots_count st
  ["cluster_state:".data ++ cs.data,
   "cluster_slots_assigned:".data ++ natChars a,
   "cluster_slots_ok:".data ++ natChars a,
   "cluster_slots_pfail:0".data,
   "cluster_slots_fail:0".data,
   "cluster_known_nodes:".data ++ natChars (Nat.max st.nodes.length 1),
   "cluster_size:".data ++ natChars (clusterSize st),
   "cluster_current_epoch:".data ++ natChars st.config_epoch,
   "cluster_my_epoch:".data ++ natChars st.config_epoch,
   "cluster_stats_messages_sent:0".data,
   "cluster_stats_messages_received:0".data]

/-- `String.data` distributes over append (definitional for the embedded
strings). -/
theorem string_data_append (s t : String) : (s ++ t).data = s.data ++ t.data :=
  rfl

theorem crlf_data : crlf.data = ['\r', '\n'] :=
  rfl

theorem natStr_data (n : Nat) : (natStr n).data = natChars n :=
  rfl

set_option maxRecDepth 4000 in
/-- The INFO body is the CRLF join of its eleven lines. -/
theorem infoBody_data_eq (st : ClusterState) :
    (infoBody st).data = joinCRLF (infoLinesSpec st) := by
  simp only [infoBody, infoLinesSpec, joinCRLF, string_data_append, crlf_data,
    natStr_data, List.append_assoc, List.cons_append, List.nil_append,
    List.append_nil]

/-- The lines of the INFO body are exactly the eleven spec lines plus the
empty tail. -/
theorem infoLines_eq (st : ClusterState) :
    infoLines st = infoLinesSpec st ++ [[]] := by
  rw [infoLines, infoBody_data_eq, splitCRLF_joinCRLF]
  intro l hl
  have hcs : '\r' ∉
      (if all_slots_assigned st && !(st.nodes.isEmpty) then "ok" else "fail").data := by
    split <;> decide
  simp only [infoLinesSpec, List.mem_cons, List.not_mem_nil, or_false] at hl
  rcases hl with rfl | rfl | rfl | rfl | rfl | rfl | rfl | rfl | rfl | rfl | rfl
  · intro hm
    rcases List.mem_append.mp hm with h1 | h1
    · exact absurd h1 (by decide)
    · exact hcs h1
  · intro hm
    rcases List.mem_append.mp hm with h1 | h1
    · exact absurd h1 (by decide)
    · exact natChars_no_cr _ h1
  · intro hm
    rcases List.mem_append.mp hm with h1 | h1
    · exact absurd h1 (by decide)
    · exact natChars_no_cr _ h1
  · decide
  · decide
  · intro hm
    rcases List.mem_append.mp hm with h1 | h1
    · exact absurd h1 (by decide)
    · exact natChars_no_cr _ h1
  · intro hm
    rcases List.mem_append.mp hm with h1 | h1
    · exact absurd h1 (by decide)
    · exact natChars_no_cr _ h1
  · intro hm
    rcases List.mem_append.mp hm with h1 | h1
    · exact absurd h1 (by decide)
    · exact natChars_no_cr _ h1
  · intro hm
    rcases List.mem_append.mp hm with h1 | h1
    · exact absurd h1 (by decide)
    · exact natChars_no_cr _ h1
  · decide
  · decide

/-- The Bool condition of the INFO state field, as a proposition. -/
theorem info_cond_iff (st : ClusterState) :
    (all_slots_assigned st && !(st.nodes.isEmpty)) = true ↔
      (assigned_slots_count st = TOTAL_SLOTS ∧ st.nodes ≠ []) := by
  simp [all_slots_assigned, List.isEmpty_iff]

/-- A pattern differing from a literal at an index inside the literal cannot
be the literal followed by anything. -/
theorem ne_lit_append (pat lit var : List Char) (i : Nat) (hi : i < lit.length)
    (hne : pat[i]? ≠ lit[i]?) : pat ≠ lit ++ var := by
  intro h
  apply hne
  rw [h, List.getElem?_append_left hi]

/-- C7: the CLUSTER INFO body contains the line `cluster_state:ok` exactly
when all 16384 slots are assigned and the node map is non-empty; otherwise it
contains the line `cluster_state:fail`; and it always contains the line
`cluster_slots_assigned:<n>` where `n` is the number of assigned slots. -/
theorem cluster_info_state (st : ClusterState) :
    ("cluster_state:ok".data ∈ infoLines st ↔
      (assigned_slots_count st = TOTAL_SLOTS ∧ st.nodes ≠ []))
    ∧ (¬ (assigned_slots_count st = TOTAL_SLOTS ∧ st.nodes ≠ []) →
      "cluster_state:fail".data ∈ infoLines st)
    ∧ ("cluster_slots_assigned:".data ++ natChars (assigned_slots_count st))
        ∈ infoLines st := by
  rw [infoLines_eq]
  by_cases hc : (all_slots_assigned st && !(st.nodes.isEmpty)) = true
  · have hif :
        (if all_slots_assigned st && !(st.nodes.isEmpty) then "ok" else "fail") = "ok" :=
      if_pos hc
    refine ⟨⟨fun _ => (info_cond_iff st).mp hc, fun _ => ?_⟩,
      fun hcon => absurd ((info_cond_iff st).mp hc) hcon, ?_⟩
    · simp [infoLinesSpec, hc]
    · simp [infoLinesSpec, hc]
  · have hif :
        (if all_slots_assigned st && !(st.nodes.isEmpty) then "ok" else "fail") = "fail" :=
      if_neg hc
    refine ⟨⟨fun hmem => ?_, fun hprop => absurd ((info_cond_iff st).mpr hprop) hc⟩,
      fun _ => ?_, ?_⟩
    · exfalso
      simp only [infoLinesSpec, hif, List.mem_append, List.mem_cons,
        List.not_mem_nil, or_false] at hmem
      rcases hmem with (h | h | h | h | h | h | h | h | h | h | h) | h
      · exact absurd h (by decide)
      · exact ne_lit_append _ _ _ 9 (by decide) (by decide) h
      · exact ne_lit_append _ _ _ 9 (by decide) (by decide) h
      · exact absurd h (by decide)
      · exact absurd h (by decide)
      · exact ne_lit_append _ _ _ 8 (by decide) (by decide) h
      · exact ne_lit_append _ _ _ 9 (by decide) (by decide) h
      · exact ne_lit_append _ _ _ 8 (by decide) (by decide) h
      · exact ne_lit_append _ _ _ 8 (by decide) (by decide) h
      · exact absurd h (by decide)
      · exact absurd h (by decide)
      · exact absurd h (by decide)
    · simp [infoLinesSpec, hc]
    · simp [infoLinesSpec, hc]

/-- A fresh state has no assigned slot. -/
theorem assigned_count_new : assigned_slots_count ClusterState.new = 0 := by
  simp [assigned_slots_count, ClusterState.new, List.filter_replicate]

/-- Witness for C7: the INFO body of a fresh state contains the line
`cluster_state:fail`. -/
theorem cluster_info_state_witness :
    "cluster_state:fail".data ∈ infoLines ClusterState.new :=
  (cluster_info_state ClusterState.new).2.1 (by
    intro hcon
    have h1 := hcon.1
    rw [assigned_count_new] at h1
    exact absurd h1 (by decide))

/-! ## CLUSTER MEET and the cluster-bus port (C9) -/

/-- C9 counterexample: CLUSTER MEET with data port 60000 and no explicit
cluster-port succeeds, but the stored cluster-bus port is
`(60000 + 10000) mod 2^16 = 4464`, not `60000 + 10000`: the `u16` addition
`port + 10000` overflows for accepted ports above 55535 (wrapping in release
builds, panicking in debug builds). -/
theorem meet_bus_port_overflow_counterexample :
    ∃ st', meet constHash ClusterState.new ["10.0.0.1", "60000"] =
        .ok (.simpleString "OK", st')
      ∧ (mlookup st'.nodes 7).map NodeInfo.cluster_port = some 4464
      ∧ (4464 : Nat) ≠ 60000 + 10000 :=
  ⟨_, rfl, by rfl, by decide⟩

/-- C9 (amended): CLUSTER MEET with an ip and a port frame parsing as `u16`
and no explicit cluster-port always returns OK with the epoch bumped; the
derived cluster-bus port is `(port + 10000) mod 2^16`, which equals
`port + 10000` exactly when `port ≤ 55535`. -/
theorem meet_two_arg_total (hashAddr : String → Nat) (st : ClusterState)
    (ip ps : String) (p : Nat) (hp : parseU16 ps = some p) :
    ∃ st', meet hashAddr st [ip, ps] = .ok (.simpleString "OK", st')
      ∧ (mlookup st'.nodes (hashAddr (ip ++ ":" ++ natStr p) % 18446744073709551616)).map
          NodeInfo.cluster_port = some (u16add p 10000)
      ∧ (p ≤ 55535 → u16add p 10000 = p + 10000)
      ∧ st'.config_epoch = st.config_epoch + 1 := by
  simp only [meet, hp]
  refine ⟨_, rfl, ?_, ?_, rfl⟩
  · simp [mlookup, minsert]
  · intro hple
    unfold u16add
    omega

/-- Witness for C9 (amended) at port 6379: the bus port is 16379. -/
theorem meet_two_arg_total_witness :
    ∃ st', meet constHash ClusterState.new ["127.0.0.1", "6379"] =
        .ok (.simpleString "OK", st')
      ∧ (mlookup st'.nodes (constHash ("127.0.0.1" ++ ":" ++ natStr 6379) %
          18446744073709551616)).map NodeInfo.cluster_port = some (u16add 6379 10000)
      ∧ (6379 ≤ 55535 → u16add 6379 10000 = 6379 + 10000)
      ∧ st'.config_epoch = ClusterState.new.config_epoch + 1 :=
  meet_two_arg_total constHash ClusterState.new "127.0.0.1" "6379" 6379 (by rfl)

/-- Witness for C4: the keys `{user}name` and `{user}age` (as byte lists)
share the body `user`. -/
theorem cluster_keyslot_hash_tag_witness :
    key_to_slot [123, 117, 115, 101, 114, 125, 110, 97, 109, 101] =
      key_to_slot [123, 117, 115, 101, 114, 125, 97, 103, 101]
    ∧ key_to_slot [123, 117, 115, 101, 114, 125, 110, 97, 109, 101] =
      key_to_slot [117, 115, 101, 114]
    ∧ keyslot [[123, 117, 115, 101, 114, 125, 110, 97, 109, 101]] =
      .ok (.integer (key_to_slot [123, 117, 115, 101, 114, 125, 110, 97, 109, 101]))
    ∧ key_to_slot [123, 117, 115, 101, 114, 125, 110, 97, 109, 101] < 16384 :=
  cluster_keyslot_hash_tag _ _ [117, 115, 101, 114] (by decide) (by decide)

/-- Witness for C6 at concrete inputs: a one-entry cache hit behaves as EVAL
of the cached source, and a miss on the empty cache yields NOSCRIPT. -/
theorem evalsha_equals_eval_witness :
    evalshaCmd constExec [("aa", "return 1")] ["aa", "0"] 0 =
      evalCmd constExec ["return 1", "0"] 0
    ∧ evalshaCmd constExec [] ["bb", "0"] 0 =
      .error (.invalidArgument "NOSCRIPT No matching script. Use EVAL.") :=
  ⟨(evalsha_equals_eval constExec [("aa", "return 1")] "aa" "return 1" "0" [] 0 0).1
      (by rfl),
   (evalsha_equals_eval constExec [] "bb" "x" "0" [] 0 0).2
      (by rfl) (by rfl) (by omega)⟩

end AiKv
